import Mathlib

/-!
Verification development for the postgres-scout-mcp request-dispatch and
safety-gating pipeline.  The TypeScript source is shallowly embedded:
strings are Lean strings (lists of characters), JavaScript numbers are
modelled as integers extended with the non-finite values, fallible code
returns Except, and the stateful components (rate limiter, connection
pool) are modelled by explicit state passing.  JavaScript regular
expressions appearing in the source are embedded as executable character
matchers; the whitespace class is modelled by the ASCII whitespace
characters (the queries concerned are ASCII).
-/

namespace PgScout

/-! ## Character-level helpers for the embedded regexes and trim -/

/-- ASCII whitespace, modelling the JS regex class backslash-s and the
characters removed by String.prototype.trim. -/
def isWsChar (c : Char) : Bool :=
  c == ' ' || c == '\t' || c == '\n' || c == '\r' || c == '\x0b' || c == '\x0c'

/-- Lower-case an ASCII letter, identity elsewhere. -/
def lowerChar (c : Char) : Char :=
  if 'A' ≤ c && c ≤ 'Z' then Char.ofNat (c.toNat + 32) else c

/-- Upper-case an ASCII letter, identity elsewhere; models toUpperCase on
the ASCII tokens it is applied to. -/
def upperChar (c : Char) : Char :=
  if 'a' ≤ c && c ≤ 'z' then Char.ofNat (c.toNat - 32) else c

/-- The JS regex word class: letters, digits, underscore. -/
def isWordChar (c : Char) : Bool :=
  ('a' ≤ c && c ≤ 'z') || ('A' ≤ c && c ≤ 'Z') || ('0' ≤ c && c ≤ '9') || c == '_'

/-- The JS regex digit class. -/
def isDigitChar (c : Char) : Bool := '0' ≤ c && c ≤ '9'

/-- String.prototype.trim on a character list: whitespace stripped from
both ends. -/
def jsTrim (l : List Char) : List Char :=
  ((l.dropWhile isWsChar).reverse.dropWhile isWsChar).reverse

/-- Case-insensitive literal match at the head of the input; returns the
rest of the input on success. -/
def matchLitCI : List Char → List Char → Option (List Char)
  | [], rest => some rest
  | _ :: _, [] => none
  | c :: cs, d :: ds => if lowerChar c == lowerChar d then matchLitCI cs ds else none

/-- Greedy whitespace-star: all the patterns below follow it with a
non-whitespace literal, so greedy consumption is exact. -/
def skipWs (l : List Char) : List Char := l.dropWhile isWsChar

/-- Whitespace-plus: at least one whitespace character, then greedy. -/
def matchWsPlus (l : List Char) : Option (List Char) :=
  match l with
  | c :: rest => if isWsChar c then some (skipWs rest) else none
  | [] => none

/-- Word boundary after a word character: end of input or a non-word
character. -/
def atBoundary (l : List Char) : Bool :=
  match l with
  | [] => true
  | c :: _ => !(isWordChar c)

/-! ## The dangerous-pattern regexes of sanitize.ts, as matchers tried at
every position of the input (unanchored search). -/

/-- A pattern of shape: semicolon, whitespace-star, keyword, word
boundary (the DANGEROUS_PATTERNS entries for DROP, TRUNCATE, ALTER,
INSERT, UPDATE, CREATE, GRANT, REVOKE, EXEC, EXECUTE). -/
def patSemiKw (kw : String) (l : List Char) : Bool :=
  match l with
  | ';' :: rest =>
    match matchLitCI kw.data (skipWs rest) with
    | some r => atBoundary r
    | none => false
  | _ => false

/-- The pattern: semicolon, whitespace-star, DELETE, whitespace-plus,
FROM, word boundary. -/
def patSemiDeleteFrom (l : List Char) : Bool :=
  match l with
  | ';' :: rest =>
    match matchLitCI "DELETE".data (skipWs rest) with
    | some r =>
      match matchWsPlus r with
      | some r2 =>
        match matchLitCI "FROM".data r2 with
        | some r3 => atBoundary r3
        | none => false
      | none => false
    | none => false
  | _ => false

/-- A plain (case-insensitive) literal occurring at this position. -/
def patLit (s : String) (l : List Char) : Bool :=
  (matchLitCI s.data l).isSome

/-- The pattern: UNION, whitespace-plus, optional (ALL whitespace-plus),
SELECT. -/
def patUnionSelect (l : List Char) : Bool :=
  match matchLitCI "UNION".data l with
  | some r =>
    match matchWsPlus r with
    | some r2 =>
      (match matchLitCI "ALL".data r2 with
       | some r3 =>
         match matchWsPlus r3 with
         | some r4 => (matchLitCI "SELECT".data r4).isSome
         | none => false
       | none => false)
      || (matchLitCI "SELECT".data r2).isSome
    | none => false
  | none => false

/-- The pattern: semicolon, whitespace-star, word character. -/
def patSemiWord (l : List Char) : Bool :=
  match l with
  | ';' :: rest =>
    match (skipWs rest) with
    | c :: _ => isWordChar c
    | [] => false
  | _ => false

/-- The pattern: INTO, whitespace-plus, OUT or DUMP, FILE. -/
def patIntoFile (l : List Char) : Bool :=
  match matchLitCI "INTO".data l with
  | some r =>
    match matchWsPlus r with
    | some r2 =>
      (match matchLitCI "OUTFILE".data r2 with
       | some _ => true
       | none => (matchLitCI "DUMPFILE".data r2).isSome)
    | none => false
  | none => false

/-- The pattern: LOAD_FILE, whitespace-star, opening parenthesis. -/
def patLoadFile (l : List Char) : Bool :=
  match matchLitCI "LOAD_FILE".data l with
  | some r =>
    match skipWs r with
    | '(' :: _ => true
    | _ => false
  | none => false

/-- Unanchored regex search: the pattern matches at some position. -/
def existsMatch (p : List Char → Bool) (l : List Char) : Bool :=
  l.tails.any p

/-- The DANGEROUS_PATTERNS list of sanitize.ts. -/
def DANGEROUS_PATTERNS : List (List Char → Bool) :=
  [ patSemiKw "DROP"
  , patSemiDeleteFrom
  , patSemiKw "TRUNCATE"
  , patSemiKw "ALTER"
  , patSemiKw "INSERT"
  , patSemiKw "UPDATE"
  , patSemiKw "CREATE"
  , patSemiKw "GRANT"
  , patSemiKw "REVOKE"
  , patLit "--"
  , patLit "/*"
  , patLit "*/"
  , patSemiKw "EXEC"
  , patSemiKw "EXECUTE"
  , patLit "xp_"
  , patUnionSelect ]

/-- The WHERE_DANGEROUS_PATTERNS list of sanitize.ts. -/
def WHERE_DANGEROUS_PATTERNS : List (List Char → Bool) :=
  [ patSemiWord
  , patLit "--"
  , patLit "/*"
  , patLit "*/"
  , patUnionSelect
  , patIntoFile
  , patLoadFile ]

/-! ## sanitizeQuery and the fragment validators of sanitize.ts -/

inductive DatabaseMode where
  | readOnly
  | readWrite
deriving DecidableEq

def modeStr : DatabaseMode → String
  | .readOnly => "read-only"
  | .readWrite => "read-write"

def ALLOWED_READ_ONLY_OPERATIONS : List String := ["SELECT", "EXPLAIN", "WITH"]

def ALLOWED_READ_WRITE_OPERATIONS : List String :=
  [ "SELECT", "INSERT", "UPDATE", "DELETE"
  , "CREATE", "ALTER", "DROP", "TRUNCATE"
  , "VACUUM", "ANALYZE", "REINDEX"
  , "EXPLAIN", "WITH" ]

/-- The leading keyword: first whitespace-delimited token of the trimmed
query, upper-cased (split on whitespace-plus, index 0, toUpperCase; on a
non-empty trimmed string the first split component is the maximal
leading run of non-whitespace characters). -/
def leadingKeyword (trimmed : List Char) : String :=
  String.mk ((trimmed.takeWhile (fun c => !(isWsChar c))).map upperChar)

/-- The stacked-statement guard: the trimmed query contains a semicolon
whose first occurrence is not at the last index. -/
def semiGuardViolated (l : List Char) : Bool :=
  match l.findIdx? (fun c => c == ';') with
  | some i => i != l.length - 1
  | none => false

/-- sanitizeQuery of sanitize.ts: trims, rejects empty input, checks the
leading keyword against the mode allow-list, scans the dangerous
patterns, and applies the stacked-statement guard.  Throwing is modelled
by returning the error message. -/
def sanitizeQuery (query : String) (mode : DatabaseMode) : Except String Unit :=
  let trimmedQuery := jsTrim query.data
  if trimmedQuery.isEmpty then
    .error "Query cannot be empty"
  else
    let operation := leadingKeyword trimmedQuery
    let allowedOps := if mode = .readOnly then ALLOWED_READ_ONLY_OPERATIONS
                      else ALLOWED_READ_WRITE_OPERATIONS
    if !(allowedOps.contains operation) then
      .error ("Operation " ++ operation ++ " not allowed in " ++ modeStr mode ++
              " mode. Allowed operations: " ++ String.intercalate ", " allowedOps)
    else if DANGEROUS_PATTERNS.any (fun p => existsMatch p trimmedQuery) then
      .error "Potentially dangerous query pattern detected"
    else if semiGuardViolated trimmedQuery then
      .error "Multiple statements not allowed. Use single queries only."
    else
      .ok ()

/-- validateUserWhereClause of sanitize.ts.  The JS emptiness test
(falsy string or whitespace-only) is equivalent to the trimmed input
being empty. -/
def validateUserWhereClause (where_ : String) : Except String Unit :=
  if (jsTrim where_.data).isEmpty then
    .error "WHERE clause cannot be empty"
  else
    let trimmed := jsTrim where_.data
    if WHERE_DANGEROUS_PATTERNS.any (fun p => existsMatch p trimmed) then
      .error "Potentially dangerous pattern detected in WHERE clause"
    else if (trimmed.filter (fun c => c == '(')).length ≠
            (trimmed.filter (fun c => c == ')')).length then
      .error "Unbalanced parentheses in WHERE clause"
    else if (trimmed.filter (fun c => c == '\'')).length % 2 ≠ 0 then
      .error "Unbalanced quotes in WHERE clause"
    else
      .ok ()

/-- validateCondition of sanitize.ts. -/
def validateCondition (condition : String) : Except String Unit :=
  if (jsTrim condition.data).isEmpty then
    .error "Condition cannot be empty"
  else
    let trimmed := jsTrim condition.data
    if WHERE_DANGEROUS_PATTERNS.any (fun p => existsMatch p trimmed) then
      .error "Potentially dangerous pattern detected in condition"
    else if (trimmed.filter (fun c => c == '(')).length ≠
            (trimmed.filter (fun c => c == ')')).length then
      .error "Unbalanced parentheses in condition"
    else
      .ok ()

/-- The interval regex: digits-plus, whitespace-plus, a unit word,
optional trailing s, end of input; case-insensitive. -/
def matchIntervalPat (l : List Char) : Bool :=
  let ds := l.takeWhile isDigitChar
  if ds.isEmpty then false
  else
    match matchWsPlus (l.drop ds.length) with
    | none => false
    | some rest =>
      ["second", "minute", "hour", "day", "week", "month", "year"].any fun u =>
        match matchLitCI u.data rest with
        | some r => r.map lowerChar == [] || r.map lowerChar == ['s']
        | none => false

/-- validateInterval of sanitize.ts. -/
def validateInterval (interval : String) : Except String Unit :=
  if (jsTrim interval.data).isEmpty then
    .error "Interval cannot be empty"
  else if !(matchIntervalPat (jsTrim interval.data)) then
    .error ("Invalid interval format: \"" ++ interval ++
            "\". Use format like \"7 days\", \"2 hours\", \"30 minutes\"")
  else
    .ok ()

/-- A character allowed in an ORDER BY item: word character or double
quote. -/
def isOrdChar (c : Char) : Bool := isWordChar c || c == '"'

/-- The optional direction suffix: whitespace-plus then ASC or DESC,
case-insensitively. -/
def matchDir (l : List Char) : Option (List Char) :=
  match matchWsPlus l with
  | some r =>
    match matchLitCI "ASC".data r with
    | some r2 => some r2
    | none => matchLitCI "DESC".data r
  | none => none

/-- One ORDER BY item: a non-empty run of item characters, then the
optional direction (greedily; if the direction fails to match, the run
alone is the item, and what follows must be a comma or the end, so the
greedy choice is exact). -/
def matchOrdItem (l : List Char) : Option (List Char) :=
  let w := l.takeWhile isOrdChar
  if w.isEmpty then none
  else
    let rest := l.drop w.length
    match matchDir rest with
    | some r => some r
    | none => some rest

/-- The comma-separated tail of the ORDER BY regex; the fuel argument
bounds recursion by the input length (each item consumes at least one
character). -/
def matchOrdTail : Nat → List Char → Bool
  | _, [] => true
  | 0, _ => false
  | fuel + 1, ',' :: r =>
    match matchOrdItem (skipWs r) with
    | some r2 => matchOrdTail fuel r2
    | none => false
  | _ + 1, _ => false

/-- The full anchored ORDER BY regex: item, then comma-separated items,
to the end of input. -/
def matchOrderByPat (l : List Char) : Bool :=
  match matchOrdItem l with
  | some r => matchOrdTail r.length r
  | none => false

/-- validateOrderBy of sanitize.ts: returns without error on empty or
whitespace-only input. -/
def validateOrderBy (orderBy : String) : Except String Unit :=
  if (jsTrim orderBy.data).isEmpty then
    .ok ()
  else
    let trimmed := jsTrim orderBy.data
    if WHERE_DANGEROUS_PATTERNS.any (fun p => existsMatch p trimmed) then
      .error "Potentially dangerous pattern detected in ORDER BY clause"
    else if !(matchOrderByPat trimmed) then
      .error "Invalid ORDER BY format. Use column names with optional ASC/DESC"
    else
      .ok ()

/-- True when an Except value is an error. -/
def isErr {ε α : Type} : Except ε α → Bool
  | .error _ => true
  | .ok _ => false

/-! ## JSON values (results returned by tools and by the database) -/

inductive Json where
  | null
  | bool (b : Bool)
  | num (n : Int)
  | str (s : String)
  | arr (items : List Json)
  | obj (fields : List (String × Json))

/-! ## JavaScript numbers

Modelled as integers extended with NaN and the two infinities; fractional
values are out of scope (every number the claims touch is integral). -/

inductive JsNum where
  | nan
  | inf
  | ninf
  | num (n : Int)
deriving DecidableEq

def jsTruthy : JsNum → Bool
  | .nan => false
  | .inf => true
  | .ninf => true
  | .num n => n != 0

/-- The JS logical-or defaulting idiom: an absent or falsy left operand
falls back to the right operand. -/
def jsOr (a : Option JsNum) (b : JsNum) : JsNum :=
  match a with
  | some v => if jsTruthy v then v else b
  | none => b

def jsIsFinite : JsNum → Bool
  | .num _ => true
  | _ => false

/-- The comparison x less-than zero in JS (false on NaN). -/
def jsLtZero : JsNum → Bool
  | .num n => n < 0
  | .ninf => true
  | _ => false

/-- Math.floor; only reached on finite values (guarded by the isFinite
check), where integers are already integral. -/
def jsFloor : JsNum → Int
  | .num n => n
  | _ => 0

/-- The strict greater-than comparison between two JS numbers (false
whenever either side is NaN). -/
def jsGtNum : JsNum → JsNum → Bool
  | .nan, _ => false
  | _, .nan => false
  | .inf, .inf => false
  | .inf, _ => true
  | .ninf, _ => false
  | .num _, .inf => false
  | .num _, .ninf => true
  | .num a, .num b => a > b

/-- Array.prototype.slice(0, e): a negative end offsets from the end of
the array, NaN is treated as 0, positive infinity takes everything. -/
def jsSliceTo {α : Type} (l : List α) (e : JsNum) : List α :=
  match e with
  | .num k => if k < 0 then l.take ((l.length : Int) + k).toNat else l.take k.toNat
  | .inf => l
  | .ninf => []
  | .nan => []

/-! ## The pooled execution primitive executeQuery of connection.ts

The pool is modelled by its checked-out connection count; the database
round-trips are oracles supplied in an environment record (whether
pool.connect succeeds, whether the SET statement succeeds, and the
outcome of the main statement).  The statements actually sent to the
session are collected in a trace, and the acquire/release operations are
counted. -/

inductive Stmt where
  | setTimeout (n : Int)
  | runQuery (text : String)
deriving DecidableEq

structure ServerConfigM where
  mode : DatabaseMode
  queryTimeout : JsNum
  maxResultRows : JsNum

structure ExecEnv where
  acquireOk : Bool
  setOk : Bool
  dbResult : Except String (List Json × Option JsNum)

structure ExecResult where
  out : Except String (List Json × Option JsNum)
  pool : Nat
  trace : List Stmt
  warned : Bool
  acquired : Nat
  released : Nat

/-- executeQuery of connection.ts: sanitize, resolve effective timeout
and row cap with the JS logical-or, acquire a connection, validate the
timeout, set the session statement timeout, run the parameterized
statement, clip the rows to the cap (with a warning) when the row count
exceeds it, and release the connection in the finally block on every
path that acquired one. -/
def executeQuery (config : ServerConfigM) (env : ExecEnv) (query : String)
    (optTimeout optMaxRows : Option JsNum) (pool : Nat) : ExecResult :=
  match sanitizeQuery query config.mode with
  | .error e => ⟨.error e, pool, [], false, 0, 0⟩
  | .ok () =>
    let timeout := jsOr optTimeout config.queryTimeout
    let maxRows := jsOr optMaxRows config.maxResultRows
    if !env.acquireOk then
      -- pool.connect threw: the client variable is still null, so the
      -- finally block performs no release
      ⟨.error "connect failed", pool, [], false, 0, 0⟩
    else
      -- one connection checked out until the finally block releases it
      let poolAcq := pool + 1
      if !(jsIsFinite timeout) || jsLtZero timeout then
        ⟨.error "Invalid timeout value", poolAcq - 1, [], false, 1, 1⟩
      else if !env.setOk then
        ⟨.error "set statement_timeout failed", poolAcq - 1,
         [.setTimeout (jsFloor timeout)], false, 1, 1⟩
      else
        match env.dbResult with
        | .error e =>
          ⟨.error e, poolAcq - 1,
           [.setTimeout (jsFloor timeout), .runQuery query], false, 1, 1⟩
        | .ok (rows, rowCount) =>
          match rowCount with
          | some rc =>
            if jsTruthy rc && jsGtNum rc maxRows then
              ⟨.ok (jsSliceTo rows maxRows, some maxRows), poolAcq - 1,
               [.setTimeout (jsFloor timeout), .runQuery query], true, 1, 1⟩
            else
              ⟨.ok (rows, some rc), poolAcq - 1,
               [.setTimeout (jsFloor timeout), .runQuery query], false, 1, 1⟩
          | none =>
            ⟨.ok (rows, none), poolAcq - 1,
             [.setTimeout (jsFloor timeout), .runQuery query], false, 1, 1⟩

/-! ## The sliding-window rate limiter of rate-limiter.ts -/

/-- Math.ceil(x / 1000) on an integral x: floor division of x + 999 by
1000 (the division operator on Int rounds toward negative infinity for
this positive divisor). -/
def jsCeilDiv1000 (x : Int) : Int := (x + 999) / 1000

structure RateLimiter where
  requests : List Int
  maxRequests : Nat
  windowMs : Int
  enabled : Bool
deriving DecidableEq

/-- checkLimit of rate-limiter.ts: no-op when disabled; otherwise evict
timestamps at or before now minus the window, fail with the computed
retry-after when the remaining count has reached the maximum (the list
is non-empty there whenever maxRequests is positive, so indexing its
head is total), and append now otherwise.  The eviction is kept on both
outcomes, as in the source, where the filtered list is written back
before the check. -/
def checkLimit (rl : RateLimiter) (now : Int) : Except Int Unit × RateLimiter :=
  if !rl.enabled then (.ok (), rl)
  else
    let windowStart := now - rl.windowMs
    let kept := rl.requests.filter (fun t => decide (windowStart < t))
    if rl.maxRequests ≤ kept.length then
      let oldestRequest := kept.headD 0
      let resetIn := jsCeilDiv1000 (oldestRequest + rl.windowMs - now)
      (.error resetIn, { rl with requests := kept })
    else
      (.ok (), { rl with requests := kept ++ [now] })

/-- A sequence of checkLimit calls at the given times, returning each
call's outcome and the final limiter state. -/
def runCalls (rl : RateLimiter) : List Int → List (Except Int Unit) × RateLimiter
  | [] => ([], rl)
  | t :: ts =>
    let step := checkLimit rl t
    let rest := runCalls step.2 ts
    (step.1 :: rest.1, rest.2)

/-! ## The dispatcher of setup.ts and executeTool of tools/index.ts

A tool definition is its schema-parse function and its handler, both of
which may throw; the registry is a partial map from names.  The
JSON.stringify applied to the result and to the error object is modelled
by carrying the Json value itself in the text field. -/

structure ToolDef where
  parseArgs : Json → Except String Json
  handler : Json → Except String Json

def getTool (tools : String → Option ToolDef) (name : String) : Option ToolDef :=
  tools name

/-- executeTool of tools/index.ts: look the name up in the registry
(throwing when absent), validate the arguments with the tool's schema
(schema.parse throws on invalid input), then run the handler. -/
def executeTool (tools : String → Option ToolDef) (name : String) (args : Json) :
    Except String Json :=
  match getTool tools name with
  | none => .error ("Tool \"" ++ name ++ "\" not found")
  | some tool =>
    match tool.parseArgs args with
    | .error e => .error e
    | .ok validatedArgs => tool.handler validatedArgs

structure ContentItem where
  ctype : String
  text : Json

structure CallToolResponse where
  content : List ContentItem
  isError : Bool

/-- The message of the rate-limit error thrown by checkLimit; the JS
float division of the window by 1000 is modelled by integer division
(the message text is not load-bearing for any claim). -/
def rateLimitMessage (maxRequests : Nat) (windowMs resetIn : Int) : String :=
  "Rate limit exceeded. Maximum " ++ toString maxRequests ++ " requests per " ++
  toString (windowMs / 1000) ++ " seconds. Try again in " ++ toString resetIn ++ " seconds."

/-- The CallToolRequestSchema handler of setup.ts: inside one try/catch,
first checkLimit, then executeTool on the arguments (defaulted to the
empty object when absent); a success is wrapped in a text-content
envelope, and any thrown error is converted into the same envelope shape
with isError set and a JSON object carrying the message and the tool
name. -/
def handleCallTool (tools : String → Option ToolDef) (rl : RateLimiter) (now : Int)
    (name : String) (args : Option Json) : CallToolResponse × RateLimiter :=
  match checkLimit rl now with
  | (.error resetIn, rl2) =>
    (⟨[⟨"text", Json.obj [("error", Json.str (rateLimitMessage rl.maxRequests rl.windowMs resetIn)),
                          ("tool", Json.str name)]⟩], true⟩, rl2)
  | (.ok _, rl2) =>
    match executeTool tools name (args.getD (Json.obj [])) with
    | .ok result => (⟨[⟨"text", result⟩], false⟩, rl2)
    | .error errorMessage =>
      (⟨[⟨"text", Json.obj [("error", Json.str errorMessage),
                            ("tool", Json.str name)]⟩], true⟩, rl2)

/-! ## The schema-to-JSON-Schema conversion of setup.ts -/

inductive ZodType where
  | zstring
  | znumber
  | zboolean
  | zarray (item : ZodType)
  | zoptional (inner : ZodType)
  | zdefault (inner : ZodType) (defaultValue : Json)

/-- The internal defaultValue tag is present exactly on default-wrapped
fields (in the validation library it is a thunk, hence always truthy
when present). -/
def hasDefaultValue : ZodType → Bool
  | .zdefault _ _ => true
  | _ => false

/-- Adding a property to a JSON object (the assignment of the default
onto the converted inner schema). -/
def objSet (j : Json) (key : String) (v : Json) : Json :=
  match j with
  | .obj fields => .obj (fields ++ [(key, v)])
  | other => other

/-- convertZodType of setup.ts: maps the runtime type tag to a JSON
schema fragment; optional unwraps to the inner type, default unwraps and
attaches the default value; every converted fragment is an object. -/
def convertZodType : ZodType → Json
  | .zstring => .obj [("type", .str "string")]
  | .znumber => .obj [("type", .str "number")]
  | .zboolean => .obj [("type", .str "boolean")]
  | .zarray item => .obj [("type", .str "array"), ("items", convertZodType item)]
  | .zoptional inner => convertZodType inner
  | .zdefault inner dv => objSet (convertZodType inner) "default" dv

/-- The keys collected into the required array by zodToJsonSchema: those
whose field carries no defaultValue tag. -/
def requiredKeys (shape : List (String × ZodType)) : List String :=
  (shape.filter (fun p => !(hasDefaultValue p.2))).map Prod.fst

/-- zodToJsonSchema of setup.ts: an object schema with the converted
properties and, when non-empty, the required list (omitted otherwise,
modelling the undefined value). -/
def zodToJsonSchema (shape : List (String × ZodType)) : Json :=
  .obj ([("type", .str "object"),
         ("properties", .obj (shape.map (fun p => (p.1, convertZodType p.2))))]
        ++ (if (requiredKeys shape).length > 0
            then [("required", .arr ((requiredKeys shape).map .str))]
            else []))

/-- Property lookup on a JSON object's field list (first match). -/
def lookupField (fields : List (String × Json)) (k : String) : Option Json :=
  (fields.find? (fun p => p.1 == k)).map Prod.snd

def objFields : Json → List (String × Json)
  | .obj fields => fields
  | _ => []

/-- Modelled from the spec: the validation library's acceptance relation
(the zod library itself is not part of this repository).  Per the spec,
the schema declares per argument key its type, optionality and default
value, and validation fails on mistyped or missing required fields while
applying defaults; in particular an optional field accepts the absence
of a value.  Array element validation is elided (no claim depends on
it). -/
def zodAccepts : ZodType → Option Json → Bool
  | .zoptional _, none => true
  | .zoptional inner, some v => zodAccepts inner (some v)
  | .zdefault _ _, none => true
  | .zdefault inner _, some v => zodAccepts inner (some v)
  | .zstring, some (.str _) => true
  | .znumber, some (.num _) => true
  | .zboolean, some (.bool _) => true
  | .zarray _, some (.arr _) => true
  | _, _ => false

/-- Modelled from the spec: object-level validation checks every
declared field against the (possibly absent) value at its key. -/
def zodObjectAccepts (shape : List (String × ZodType)) (j : Json) : Bool :=
  match j with
  | .obj fields => shape.all (fun p => zodAccepts p.2 (lookupField fields p.1))
  | _ => false

end PgScout


namespace PgScout

/-! ## Helper lemmas -/

theorem isErr_eq_true {ε : Type} (e : Except ε Unit) : isErr e = true ↔ e ≠ .ok () := by
  cases e <;> simp [isErr]

theorem ite_error_ne_ok {c : Prop} [Decidable c] (e1 e2 : String) :
    (if c then (Except.error e1 : Except String Unit) else .error e2) ≠ .ok () := by
  split <;> simp

/-- sanitizeQuery succeeds exactly when the trimmed query is non-empty,
the leading keyword is allow-listed for the mode, no dangerous pattern
matches, and the stacked-statement guard does not fire. -/
theorem sanitizeQuery_eq_ok_iff (q : String) (mode : DatabaseMode) :
    sanitizeQuery q mode = .ok () ↔
      ((jsTrim q.data).isEmpty = false
       ∧ (if mode = .readOnly then ALLOWED_READ_ONLY_OPERATIONS
          else ALLOWED_READ_WRITE_OPERATIONS).contains (leadingKeyword (jsTrim q.data)) = true
       ∧ DANGEROUS_PATTERNS.any (fun p => existsMatch p (jsTrim q.data)) = false
       ∧ semiGuardViolated (jsTrim q.data) = false) := by
  have hcases : ∀ (b : Bool), b = true ∨ b = false := fun b => by cases b <;> simp
  rcases hcases ((jsTrim q.data).isEmpty) with h1 | h1 <;>
  rcases hcases ((if mode = .readOnly then ALLOWED_READ_ONLY_OPERATIONS
      else ALLOWED_READ_WRITE_OPERATIONS).contains (leadingKeyword (jsTrim q.data))) with h2 | h2 <;>
  rcases hcases (DANGEROUS_PATTERNS.any (fun p => existsMatch p (jsTrim q.data))) with h3 | h3 <;>
  rcases hcases (semiGuardViolated (jsTrim q.data)) with h4 | h4 <;>
  simp [sanitizeQuery, h1, h2, h3, h4, ite_error_ne_ok]

end PgScout

namespace PgScout

/-- Claim C6: sanitizeQuery fails whenever the leading keyword (the
first whitespace-delimited token of the trimmed query, upper-cased) is
not in the active mode's allow-list; DELETE FROM t fails in read-only
mode with the mode-violation message and succeeds in read-write mode. -/
theorem sanitizeQuery_mode_allowlist :
    (∀ (q : String) (mode : DatabaseMode),
        (if mode = .readOnly then ALLOWED_READ_ONLY_OPERATIONS
         else ALLOWED_READ_WRITE_OPERATIONS).contains (leadingKeyword (jsTrim q.data)) = false →
        isErr (sanitizeQuery q mode) = true)
    ∧ sanitizeQuery "DELETE FROM t" .readOnly =
        .error "Operation DELETE not allowed in read-only mode. Allowed operations: SELECT, EXPLAIN, WITH"
    ∧ sanitizeQuery "DELETE FROM t" .readWrite = .ok () := by
  refine ⟨?_, rfl, rfl⟩
  intro q mode h
  rw [isErr_eq_true]
  intro hok
  rw [sanitizeQuery_eq_ok_iff] at hok
  rw [h] at hok
  exact absurd hok.2.1 (by simp)

theorem sanitizeQuery_mode_allowlist_witness :
    isErr (sanitizeQuery "FOO 1" .readOnly) = true :=
  sanitizeQuery_mode_allowlist.1 "FOO 1" .readOnly rfl

/-- Counterexample for claim C7 as stated: the query consisting of
SELECT 1; followed by a space contains a semicolon (at index 8) that is
not at the final position (index 9), yet sanitizeQuery accepts it,
because the guard inspects the trimmed query. -/
theorem sanitizeQuery_semicolon_counterexample :
    ("SELECT 1; ".data.findIdx? (fun c => c == ';')) = some 8
    ∧ "SELECT 1; ".data.length = 10
    ∧ sanitizeQuery "SELECT 1; " .readOnly = .ok () :=
  ⟨rfl, rfl, rfl⟩

/-- Claim C7 (amended to the trimmed query): whenever the trimmed query
contains a semicolon whose first occurrence is not its final character,
sanitizeQuery fails; a trimmed query with no semicolon, or whose first
semicolon is its final character, passes the stacked-statement guard;
SELECT 1; and SELECT 1 are accepted and SELECT 1; SELECT 2 is
rejected. -/
theorem sanitizeQuery_semicolon_guard :
    (∀ (q : String) (mode : DatabaseMode),
        semiGuardViolated (jsTrim q.data) = true → isErr (sanitizeQuery q mode) = true)
    ∧ (∀ q : String,
        ((jsTrim q.data).findIdx? (fun c => c == ';') = none
         ∨ (jsTrim q.data).findIdx? (fun c => c == ';') = some ((jsTrim q.data).length - 1)) →
        semiGuardViolated (jsTrim q.data) = false)
    ∧ sanitizeQuery "SELECT 1;" .readOnly = .ok ()
    ∧ sanitizeQuery "SELECT 1" .readOnly = .ok ()
    ∧ isErr (sanitizeQuery "SELECT 1; SELECT 2" .readOnly) = true := by
  refine ⟨?_, ?_, rfl, rfl, rfl⟩
  · intro q mode h
    rw [isErr_eq_true]
    intro hok
    rw [sanitizeQuery_eq_ok_iff] at hok
    rw [h] at hok
    exact absurd hok.2.2.2 (by simp)
  · intro q h
    unfold semiGuardViolated
    rcases h with h | h <;> simp [h]

theorem sanitizeQuery_semicolon_guard_witness :
    isErr (sanitizeQuery "SELECT 1 ; 2" .readOnly) = true :=
  sanitizeQuery_semicolon_guard.1 "SELECT 1 ; 2" .readOnly rfl

/-- Claim C10: on empty or whitespace-only input, validateOrderBy
returns successfully while validateUserWhereClause, validateCondition
and validateInterval each fail. -/
theorem validators_blank_input :
    ∀ s : String, (jsTrim s.data).isEmpty = true →
      validateOrderBy s = .ok ()
      ∧ isErr (validateUserWhereClause s) = true
      ∧ isErr (validateCondition s) = true
      ∧ isErr (validateInterval s) = true := by
  intro s h
  refine ⟨?_, ?_, ?_, ?_⟩ <;>
    simp [validateOrderBy, validateUserWhereClause, validateCondition, validateInterval, h, isErr]

theorem validators_blank_input_witness :
    validateOrderBy "  " = .ok ()
    ∧ isErr (validateUserWhereClause "  ") = true
    ∧ isErr (validateCondition "  ") = true
    ∧ isErr (validateInterval "  ") = true :=
  validators_blank_input "  " rfl

/-- Claim C5: on every path through executeQuery (sanitization failure,
connect failure, invalid timeout, SET failure, statement failure,
success), the checked-out connection count after the call equals the
count before it, and every acquired connection is released exactly
once. -/
theorem executeQuery_connection_release :
    ∀ (config : ServerConfigM) (env : ExecEnv) (query : String)
      (optTimeout optMaxRows : Option JsNum) (pool : Nat),
      (executeQuery config env query optTimeout optMaxRows pool).pool = pool
      ∧ (executeQuery config env query optTimeout optMaxRows pool).released
          = (executeQuery config env query optTimeout optMaxRows pool).acquired := by
  intro config env query optTimeout optMaxRows pool
  refine ⟨?_, ?_⟩ <;> (simp only [executeQuery]; repeat' split) <;> simp

/-- Counterexample for claim C2 as stated: a client-supplied row cap of
minus one is truthy, so it becomes the effective cap; one row exceeds
it, the slice with a negative end returns zero rows, and zero is not
"exactly C" rows for C equal to minus one. -/
theorem executeQuery_row_cap_counterexample :
    (executeQuery ⟨.readOnly, .num 1000, .num 100⟩
        ⟨true, true, .ok ([Json.null], some (.num 1))⟩
        "SELECT 1" none (some (.num (-1))) 0).out = .ok ([], some (.num (-1)))
    ∧ ((-1 : Int) < 1) ∧ (0 : Int) ≠ -1 ∧ ([] : List Json).length = 0 :=
  ⟨rfl, by decide, by decide, rfl⟩

/-- Claim C2 (amended to non-negative effective caps): when the
underlying result has R rows and the effective cap is C with 0 ≤ C, a
call that reaches the database returns exactly C rows with a warning if
C < R, and all R rows unmodified with no warning if C ≥ R. -/
theorem executeQuery_row_cap (config : ServerConfigM) (query : String)
    (optTimeout optMaxRows : Option JsNum) (pool : Nat) (rows : List Json) (C : Int)
    (hs : sanitizeQuery query config.mode = .ok ())
    (hfin : jsIsFinite (jsOr optTimeout config.queryTimeout) = true)
    (hneg : jsLtZero (jsOr optTimeout config.queryTimeout) = false)
    (hcap : jsOr optMaxRows config.maxResultRows = .num C)
    (hC : 0 ≤ C) :
    (C < (rows.length : Int) →
        (executeQuery config ⟨true, true, .ok (rows, some (.num rows.length))⟩
            query optTimeout optMaxRows pool).out
          = .ok (rows.take C.toNat, some (.num C))
        ∧ (executeQuery config ⟨true, true, .ok (rows, some (.num rows.length))⟩
            query optTimeout optMaxRows pool).warned = true
        ∧ ((rows.take C.toNat).length : Int) = C)
    ∧ ((rows.length : Int) ≤ C →
        (executeQuery config ⟨true, true, .ok (rows, some (.num rows.length))⟩
            query optTimeout optMaxRows pool).out
          = .ok (rows, some (.num rows.length))
        ∧ (executeQuery config ⟨true, true, .ok (rows, some (.num rows.length))⟩
            query optTimeout optMaxRows pool).warned = false) := by
  constructor
  · intro hlt
    have hcond : (jsTruthy (.num (rows.length : Int))
        && jsGtNum (.num (rows.length : Int)) (.num C)) = true := by
      simp [jsTruthy, jsGtNum]
      refine ⟨fun h => ?_, hlt⟩
      subst h
      simp at hlt
      omega
    simp only [executeQuery, hs, hcap, hfin, hneg]
    simp only [Bool.not_true, Bool.or_false, Bool.false_or, if_false]
    simp [hcond, jsSliceTo, if_neg (by omega : ¬C < 0), List.length_take]
    rw [max_eq_left hC]
    exact min_eq_left (le_of_lt hlt)
  · intro hle
    have hcond : (jsTruthy (.num (rows.length : Int))
        && jsGtNum (.num (rows.length : Int)) (.num C)) = false := by
      simp [jsTruthy, jsGtNum]
      omega
    simp only [executeQuery, hs, hcap, hfin, hneg]
    simp [hcond]

theorem executeQuery_row_cap_witness :
    ((2 : Int) < (([Json.null, Json.null, Json.null] : List Json).length : Int))
    ∧ (executeQuery ⟨.readOnly, .num 100, .num 10⟩
        ⟨true, true, .ok ([Json.null, Json.null, Json.null],
                          some (.num ([Json.null, Json.null, Json.null] : List Json).length))⟩
        "SELECT 1" none (some (.num 2)) 0).out
      = .ok ([Json.null, Json.null, Json.null].take (Int.toNat 2), some (.num 2)) :=
  ⟨by decide,
   ((executeQuery_row_cap ⟨.readOnly, .num 100, .num 10⟩ "SELECT 1" none (some (.num 2)) 0
      [Json.null, Json.null, Json.null] 2 rfl rfl rfl rfl (by decide)).1 (by decide)).1⟩

/-- Counterexample for claim C4 as stated: with options.timeout given as
0 and config.queryTimeout 1000, the session statement timeout set is
1000, not 0 — the JS logical-or treats 0 as absent. -/
theorem executeQuery_timeout_zero_counterexample :
    (executeQuery ⟨.readOnly, .num 1000, .num 100⟩ ⟨true, true, .ok ([], some (.num 0))⟩
        "SELECT 1" (some (.num 0)) none 0).trace
      = [.setTimeout 1000, .runQuery "SELECT 1"]
    ∧ (1000 : Int) ≠ 0 :=
  ⟨rfl, by decide⟩

/-- Claim C4 (amended): the effective timeout is options.timeout when
provided and truthy, and config.queryTimeout otherwise — including when
options.timeout is 0, which the JS logical-or treats as absent; whenever
the effective value is not a finite non-negative number the call fails
with no statement executed, and otherwise the first statement executed
sets the session timeout to the effective value. -/
theorem executeQuery_timeout_resolution :
    (∀ (v cfgT : JsNum), jsTruthy v = true → jsOr (some v) cfgT = v)
    ∧ (∀ cfgT : JsNum, jsOr none cfgT = cfgT)
    ∧ (∀ (v cfgT : JsNum), jsTruthy v = false → jsOr (some v) cfgT = cfgT)
    ∧ (∀ (config : ServerConfigM) (env : ExecEnv) (query : String)
         (optTimeout optMaxRows : Option JsNum) (pool : Nat),
        jsIsFinite (jsOr optTimeout config.queryTimeout) = false
          ∨ jsLtZero (jsOr optTimeout config.queryTimeout) = true →
        isErr (executeQuery config env query optTimeout optMaxRows pool).out = true
        ∧ (executeQuery config env query optTimeout optMaxRows pool).trace = [])
    ∧ (∀ (config : ServerConfigM) (env : ExecEnv) (query : String)
         (optTimeout optMaxRows : Option JsNum) (pool : Nat),
        sanitizeQuery query config.mode = .ok () → env.acquireOk = true →
        jsIsFinite (jsOr optTimeout config.queryTimeout) = true →
        jsLtZero (jsOr optTimeout config.queryTimeout) = false →
        (executeQuery config env query optTimeout optMaxRows pool).trace.head?
          = some (.setTimeout (jsFloor (jsOr optTimeout config.queryTimeout)))) := by
  refine ⟨?_, ?_, ?_, ?_, ?_⟩
  · intro v cfgT h; simp [jsOr, h]
  · intro cfgT; simp [jsOr]
  · intro v cfgT h; simp [jsOr, h]
  · intro config env query optTimeout optMaxRows pool h
    simp only [executeQuery]
    cases hs : sanitizeQuery query config.mode with
    | error e => simp [isErr]
    | ok u =>
      cases u
      cases ha : env.acquireOk with
      | false => simp [isErr]
      | true =>
        rcases h with h | h <;> simp [h, isErr]
  · intro config env query optTimeout optMaxRows pool hs ha hfin hneg
    simp only [executeQuery, hs, ha, hfin, hneg]
    simp only [Bool.not_true, Bool.or_false, Bool.false_or, if_false]
    cases hso : env.setOk with
    | false => simp
    | true =>
      cases hdb : env.dbResult with
      | error e => simp
      | ok pr =>
        rcases pr with ⟨rows, rc⟩
        cases rc with
        | none => simp
        | some v => by_cases hc : (jsTruthy v && jsGtNum v (jsOr optMaxRows config.maxResultRows)) = true <;> simp [hc]

theorem executeQuery_timeout_resolution_witness :
    jsOr (some (.num 0)) (.num 1000) = .num 1000
    ∧ isErr (executeQuery ⟨.readOnly, .num (-5), .num 100⟩ ⟨true, true, .ok ([], none)⟩
        "SELECT 1" none none 0).out = true :=
  ⟨executeQuery_timeout_resolution.2.2.1 (.num 0) (.num 1000) rfl,
   (executeQuery_timeout_resolution.2.2.2.1 ⟨.readOnly, .num (-5), .num 100⟩
      ⟨true, true, .ok ([], none)⟩ "SELECT 1" none none 0 (Or.inr (by rfl))).1⟩

/-- Claim C8: the dispatcher always returns a well-formed envelope — on
success a single text item carrying the handler result, and on any
failure (rate limit, unknown tool, argument validation, handler error)
the same shape with isError set and a JSON object whose error field is
the message and whose tool field is the invoked tool name. -/
theorem dispatcher_response_shape :
    ∀ (tools : String → Option ToolDef) (rl : RateLimiter) (now : Int)
      (name : String) (args : Option Json),
      (∃ result,
          executeTool tools name (args.getD (Json.obj [])) = .ok result
          ∧ (handleCallTool tools rl now name args).1
              = ⟨[⟨"text", result⟩], false⟩)
      ∨ (∃ msg,
          (handleCallTool tools rl now name args).1
            = ⟨[⟨"text", Json.obj [("error", Json.str msg), ("tool", Json.str name)]⟩], true⟩) := by
  intro tools rl now name args
  rcases hcl : checkLimit rl now with ⟨r, rl2⟩
  cases r with
  | error i =>
    right
    exact ⟨rateLimitMessage rl.maxRequests rl.windowMs i, by simp [handleCallTool, hcl]⟩
  | ok u =>
    cases u
    cases hex : executeTool tools name (args.getD (Json.obj [])) with
    | ok res => left; exact ⟨res, rfl, by simp [handleCallTool, hcl, hex]⟩
    | error msg => right; exact ⟨msg, by simp [handleCallTool, hcl, hex]⟩

/-- Counterexample for claim C1 as stated: invoking an unknown tool on a
fresh enabled limiter records a timestamp — the rate-limit check runs
before the registry lookup, so an unknown-tool invocation does consume a
rate-limit slot. -/
theorem dispatch_order_counterexample :
    (handleCallTool (fun _ => none) ⟨[], 1, 1000, true⟩ 0 "nope" none).2.requests = [0]
    ∧ executeTool (fun _ => none) "nope" (Json.obj []) = .error "Tool \"nope\" not found"
    ∧ (handleCallTool (fun _ => none) ⟨[], 1, 1000, true⟩ 0 "nope" none).1.isError = true :=
  ⟨rfl, rfl, rfl⟩

/-- Claim C1 (amended): the dispatcher's steps occur in the order
rate-limit check, then tool-name lookup, then schema validation, then
handler execution; an invocation that fails the rate check terminates
before lookup (its outcome is independent of the registry), an
invocation that passes the rate check leaves the limiter in the state
checkLimit produced — so an unknown tool name or failing validation
still consumes a rate-limit slot — and within executeTool an unknown
name fails before validation while a validation failure returns the
parse error regardless of the handler. -/
theorem dispatch_order :
    (∀ (toolsA toolsB : String → Option ToolDef) (rl : RateLimiter) (now : Int)
       (name : String) (args : Option Json) (resetIn : Int) (rl2 : RateLimiter),
        checkLimit rl now = (.error resetIn, rl2) →
        handleCallTool toolsA rl now name args = handleCallTool toolsB rl now name args
        ∧ (handleCallTool toolsA rl now name args).1.isError = true
        ∧ (handleCallTool toolsA rl now name args).2 = rl2)
    ∧ (∀ (tools : String → Option ToolDef) (rl : RateLimiter) (now : Int)
         (name : String) (args : Option Json) (rl2 : RateLimiter),
        checkLimit rl now = (.ok (), rl2) →
        (handleCallTool tools rl now name args).2 = rl2)
    ∧ (∀ (tools : String → Option ToolDef) (name : String) (args : Json),
        tools name = none →
        executeTool tools name args = .error ("Tool \"" ++ name ++ "\" not found"))
    ∧ (∀ (parse handlerA handlerB : Json → Except String Json)
         (name : String) (args : Json) (e : String),
        parse args = .error e →
        executeTool (fun _ => some ⟨parse, handlerA⟩) name args
          = executeTool (fun _ => some ⟨parse, handlerB⟩) name args
        ∧ executeTool (fun _ => some ⟨parse, handlerA⟩) name args = .error e) := by
  refine ⟨?_, ?_, ?_, ?_⟩
  · intro toolsA toolsB rl now name args resetIn rl2 h
    refine ⟨?_, ?_, ?_⟩ <;> simp [handleCallTool, h]
  · intro tools rl now name args rl2 h
    simp only [handleCallTool, h]
    cases hex : executeTool tools name (args.getD (Json.obj [])) <;> simp
  · intro tools name args h
    simp [executeTool, getTool, h]
  · intro parse handlerA handlerB name args e h
    constructor <;> simp [executeTool, getTool, h]

theorem dispatch_order_witness :
    (handleCallTool (fun _ => none) ⟨[], 2, 1000, true⟩ 5 "x" none).2
      = ⟨[5], 2, 1000, true⟩ :=
  dispatch_order.2.1 (fun _ => none) ⟨[], 2, 1000, true⟩ 5 "x" none
    ⟨[5], 2, 1000, true⟩ rfl

/-- Claim C9: a property key appears in the generated required list
exactly when its field carries no default value; the schema object's
required property is that list when non-empty and absent otherwise; in
particular a field declared optional but without a default is advertised
as required even though validation accepts its absence. -/
theorem required_iff_no_default :
    (∀ (shape : List (String × ZodType)) (k : String),
        k ∈ requiredKeys shape ↔ ∃ t, (k, t) ∈ shape ∧ hasDefaultValue t = false)
    ∧ (∀ shape : List (String × ZodType),
        lookupField (objFields (zodToJsonSchema shape)) "required"
          = if (requiredKeys shape).isEmpty then none
            else some (.arr ((requiredKeys shape).map .str)))
    ∧ requiredKeys [("x", .zoptional .zstring)] = ["x"]
    ∧ zodObjectAccepts [("x", .zoptional .zstring)] (.obj []) = true := by
  refine ⟨?_, ?_, rfl, rfl⟩
  · intro shape k
    simp only [requiredKeys, List.mem_map, List.mem_filter]
    constructor
    · rintro ⟨⟨k2, t⟩, ⟨hmem, hdef⟩, rfl⟩
      exact ⟨t, hmem, by simpa using hdef⟩
    · rintro ⟨t, hmem, hdef⟩
      exact ⟨(k, t), ⟨hmem, by simp [hdef]⟩, rfl⟩
  · intro shape
    have h1 : (("type" : String) == "required") = false := by decide
    have h2 : (("properties" : String) == "required") = false := by decide
    cases h : requiredKeys shape with
    | nil => simp [zodToJsonSchema, objFields, lookupField, h, List.find?, h1, h2]
    | cons a l =>
      simp [zodToJsonSchema, objFields, lookupField, h, List.find?, h1, h2]

theorem required_iff_no_default_witness :
    "x" ∈ requiredKeys [("x", ZodType.zoptional .zstring)] :=
  (required_iff_no_default.1 [("x", ZodType.zoptional .zstring)] "x").mpr
    ⟨.zoptional .zstring, by simp, rfl⟩

/-! ## The rate-limiter window law (claim C3) -/

/-- When the current time is still inside the window that started at t0
and every recorded timestamp is at least t0, the eviction step keeps
every timestamp. -/
theorem filter_window_all (rs : List Int) (t0 W now : Int) (hnow : now < t0 + W)
    (hlb : ∀ r ∈ rs, t0 ≤ r) :
    rs.filter (fun t => decide (now - W < t)) = rs := by
  apply List.filter_eq_self.mpr
  intro a ha
  simp only [decide_eq_true_eq]
  have := hlb a ha
  omega

/-- A checkLimit call that evicts nothing and finds the window full
fails with the retry-after computed from the oldest kept timestamp, and
leaves the kept list unchanged. -/
theorem checkLimit_at_capacity (rs : List Int) (N : Nat) (W now : Int)
    (hfilt : rs.filter (fun t => decide (now - W < t)) = rs)
    (hlen : N ≤ rs.length) :
    checkLimit ⟨rs, N, W, true⟩ now
      = (.error (jsCeilDiv1000 (rs.headD 0 + W - now)), ⟨rs, N, W, true⟩) := by
  simp [checkLimit, hfilt, hlen]

/-- A checkLimit call that evicts nothing and finds room appends the
current time and succeeds. -/
theorem checkLimit_below_capacity (rs : List Int) (N : Nat) (W now : Int)
    (hfilt : rs.filter (fun t => decide (now - W < t)) = rs)
    (hlen : rs.length < N) :
    checkLimit ⟨rs, N, W, true⟩ now = (.ok (), ⟨rs ++ [now], N, W, true⟩) := by
  simp [checkLimit, hfilt, Nat.not_le.mpr hlen]

/-- Running a call sequence that stays inside the window starting at t0,
from a state whose recorded timestamps also lie in that window: the
calls succeed until the recorded count reaches the maximum and every
later call fails with the retry-after computed from the oldest recorded
timestamp. -/
theorem runCalls_window (N : Nat) (W t0 : Int) :
    ∀ (us rs : List Int),
      rs.length ≤ N →
      (∀ r ∈ rs, t0 ≤ r) →
      (∀ u ∈ us, t0 ≤ u ∧ u < t0 + W) →
      runCalls ⟨rs, N, W, true⟩ us
        = ((us.take (N - rs.length)).map (fun _ => (.ok () : Except Int Unit))
            ++ (us.drop (N - rs.length)).map
                (fun u => .error (jsCeilDiv1000 ((rs ++ us.take (N - rs.length)).headD 0 + W - u))),
           ⟨rs ++ us.take (N - rs.length), N, W, true⟩) := by
  intro us
  induction us with
  | nil => intro rs _ _ _; simp [runCalls]
  | cons u us ih =>
    intro rs hlen hlb hin
    have hu := hin u (List.mem_cons_self u us)
    have hfilt := filter_window_all rs t0 W u hu.2 hlb
    by_cases hsat : N ≤ rs.length
    · have hNeq : rs.length = N := Nat.le_antisymm hlen hsat
      have hstep := checkLimit_at_capacity rs N W u hfilt hsat
      have hrest := ih rs hlen hlb (fun x hx => hin x (List.mem_cons_of_mem u hx))
      simp only [runCalls, hstep, hrest]
      simp [hNeq, Nat.sub_self]
    · have hlt : rs.length < N := Nat.lt_of_not_le hsat
      have hstep := checkLimit_below_capacity rs N W u hfilt hlt
      have hlb2 : ∀ r ∈ rs ++ [u], t0 ≤ r := by
        intro r hr
        rcases List.mem_append.mp hr with h | h
        · exact hlb r h
        · rw [List.mem_singleton] at h
          subst h
          exact hu.1
      have hlen2 : (rs ++ [u]).length ≤ N := by
        simp only [List.length_append, List.length_singleton]
        omega
      have hrest := ih (rs ++ [u]) hlen2 hlb2 (fun x hx => hin x (List.mem_cons_of_mem u hx))
      simp only [runCalls, hstep, hrest]
      have harith : N - rs.length = (N - (rs.length + 1)) + 1 := by omega
      rw [harith]
      simp [List.take_succ_cons, List.drop_succ_cons, List.append_assoc]

/-- Claim C3: from a fresh enabled limiter with maximum N and window W,
for a call sequence lying inside the window [t0, t0 + W) whose first
call is at t0, the first N calls succeed and every later call fails with
retry-after ceil((t0 + W − now) / 1000); exactly min N (number of calls)
calls succeed; every retry-after produced is positive; the recorded
timestamps are those of the successful calls; and a call after the
window has passed the first recorded call succeeds again. -/
theorem rate_limiter_window_law (N : Nat) (W t0 : Int) (ts : List Int)
    (hN : 1 ≤ N) (hW : 0 < W)
    (hin : ∀ t ∈ ts, t0 ≤ t ∧ t < t0 + W)
    (hhead : ts.head? = some t0) :
    (runCalls ⟨[], N, W, true⟩ ts).1
        = (ts.take N).map (fun _ => (.ok () : Except Int Unit))
          ++ (ts.drop N).map (fun t => .error (jsCeilDiv1000 (t0 + W - t)))
    ∧ (runCalls ⟨[], N, W, true⟩ ts).1.countP (fun r => !(isErr r)) = min N ts.length
    ∧ (∀ t ∈ ts.drop N, 1 ≤ jsCeilDiv1000 (t0 + W - t))
    ∧ (runCalls ⟨[], N, W, true⟩ ts).2.requests = ts.take N
    ∧ (∀ now, t0 + W < now →
        (checkLimit (runCalls ⟨[], N, W, true⟩ ts).2 now).1 = .ok ()) := by
  obtain ⟨t1, tl, rfl⟩ : ∃ a l, ts = a :: l := by
    cases ts with
    | nil => simp at hhead
    | cons a l => exact ⟨a, l, rfl⟩
  have ht1 : t1 = t0 := by simpa using hhead
  subst ht1
  obtain ⟨m, rfl⟩ : ∃ m, N = m + 1 := ⟨N - 1, by omega⟩
  have hrw := runCalls_window (m + 1) W t1 (t1 :: tl) [] (by simp) (by simp) hin
  simp only [List.length_nil, Nat.sub_zero, List.nil_append] at hrw
  have hheadD : ((t1 :: tl).take (m + 1)).headD 0 = t1 := by
    rw [List.take_succ_cons]
    rfl
  rw [hheadD] at hrw
  have hfst : (runCalls ⟨[], m + 1, W, true⟩ (t1 :: tl)).1
      = ((t1 :: tl).take (m + 1)).map (fun _ => (.ok () : Except Int Unit))
        ++ ((t1 :: tl).drop (m + 1)).map (fun u => .error (jsCeilDiv1000 (t1 + W - u))) := by
    rw [hrw]
  have hsnd : (runCalls ⟨[], m + 1, W, true⟩ (t1 :: tl)).2
      = ⟨(t1 :: tl).take (m + 1), m + 1, W, true⟩ := by
    rw [hrw]
  refine ⟨hfst, ?_, ?_, ?_, ?_⟩
  · rw [hfst, List.countP_append]
    have h1 : (((t1 :: tl).take (m + 1)).map
        (fun _ => (.ok () : Except Int Unit))).countP (fun r => !(isErr r))
        = (((t1 :: tl).take (m + 1)).map (fun _ => (.ok () : Except Int Unit))).length := by
      apply List.countP_eq_length.mpr
      intro a ha
      rcases List.mem_map.mp ha with ⟨x, hx, rfl⟩
      simp [isErr]
    have h2 : (((t1 :: tl).drop (m + 1)).map
        (fun u => (.error (jsCeilDiv1000 (t1 + W - u)) : Except Int Unit))).countP
          (fun r => !(isErr r)) = 0 := by
      apply List.countP_eq_zero.mpr
      intro a ha
      rcases List.mem_map.mp ha with ⟨x, hx, rfl⟩
      simp [isErr]
    rw [h1, h2]
    simp [List.length_take]
    omega
  · intro t ht
    have hmem : t ∈ t1 :: tl := List.mem_of_mem_drop ht
    have := hin t hmem
    simp only [jsCeilDiv1000]
    omega
  · rw [hsnd]
  · intro now hnow
    rw [hsnd, List.take_succ_cons]
    have hp : (decide (now - W < t1)) = false := by
      simp only [decide_eq_false_iff_not]
      have := hin t1 (List.mem_cons_self t1 tl)
      omega
    have hcond : ¬(m + 1 ≤ ((t1 :: tl.take m).filter
        (fun t => decide (now - W < t))).length) := by
      simp [List.filter_cons, hp]
      have h1 := List.length_filter_le (fun t => decide (now - W < t)) (tl.take m)
      have h2 : (tl.take m).length ≤ m := by
        rw [List.length_take]
        exact Nat.min_le_left m tl.length
      omega
    simp [checkLimit, hcond]

theorem rate_limiter_window_law_witness :
    (runCalls ⟨[], 2, 1000, true⟩ [0, 10, 20]).2.requests = [0, 10, 20].take 2 :=
  (rate_limiter_window_law 2 1000 0 [0, 10, 20] (by decide) (by decide)
    (by decide) rfl).2.2.2.1

end PgScout
